import Mathlib

/-!
# Verification of the telegram-template-bot navigation core

Shallow embedding of `bot.py`: the symbol interner (`get_or_create_id` and the
two global maps), the table-driven three-level navigation handlers
(`send_initial_key_buttons`, the three branches of `handle_button_press`),
the callback-payload codec, the kick scheduling logic (`schedule_kick_user`
and the audit/kick block of the terminal branch), and — modelled from the
spec, since no rate limiter exists in the source — the sliding-window rate
limiter of spec §4.4.

Python strings are modelled as Lean `String` (a list of characters);
Python ints as `Int`; Python dicts as association lists; Python sets as
`Finset`; Python's decimal `str`/`int` conversions are modelled by
`intRepr` / `pyInt?` below.
-/

namespace TgBot

/-- One record of `DATA_TABLE`: a row of the Excel sheet after
`df.fillna('')` and `astype(str)`, so all four fields are strings. -/
structure Row where
  Key : String
  Rep1 : String
  Rep2 : String
  Rep3 : String
deriving DecidableEq

/-- The interner state: the globals `STRING_TO_ID_MAP`, `ID_TO_STRING_MAP`
and `next_id` of `bot.py`. Python dicts are modelled as association lists
(first binding wins; keys are never inserted twice). -/
structure Interner where
  stringToId : List (String × Int)
  idToString : List (Int × String)
  nextId : Int
deriving DecidableEq

/-- Initial interner state (empty maps, `next_id = 0`). -/
def Interner.empty : Interner := ⟨[], [], 0⟩

/-- Dict lookup in `STRING_TO_ID_MAP`. -/
def lookupStr : List (String × Int) → String → Option Int
  | [], _ => none
  | (k, v) :: rest, s => if k = s then some v else lookupStr rest s

/-- Dict lookup in `ID_TO_STRING_MAP`. -/
def lookupId : List (Int × String) → Int → Option String
  | [], _ => none
  | (k, v) :: rest, i => if k = i then some v else lookupId rest i

/-- Function `get_or_create_id` (bot.py lines 35-41): if `text` is not yet in
`STRING_TO_ID_MAP`, bind it to `next_id` in both maps and increment
`next_id`; return the (existing or fresh) id. -/
def get_or_create_id (st : Interner) (text : String) : Int × Interner :=
  match lookupStr st.stringToId text with
  | some i => (i, st)
  | none =>
      (st.nextId,
        { stringToId := (text, st.nextId) :: st.stringToId
          idToString := (st.nextId, text) :: st.idToString
          nextId := st.nextId + 1 })

/-- The load loop (bot.py lines 54-57): intern `Key`, `Rep1`, `Rep2` of a row
(`Rep3` is not interned). -/
def internRowStrings (st : Interner) (r : Row) : Interner :=
  let st1 := (get_or_create_id st r.Key).2
  let st2 := (get_or_create_id st1 r.Rep1).2
  (get_or_create_id st2 r.Rep2).2

/-- The whole mapping-construction loop over `DATA_TABLE` starting from the
empty globals. -/
def loadMappings (rows : List Row) : Interner :=
  rows.foldl internRowStrings Interner.empty

/-! ## Decimal representation and parsing (models Python `str(int)` / `int(str)`) -/

/-- The ASCII character of a decimal digit (models Python's decimal
formatting of a single digit). -/
def digitChar : Nat → Char
  | 0 => '0' | 1 => '1' | 2 => '2' | 3 => '3' | 4 => '4'
  | 5 => '5' | 6 => '6' | 7 => '7' | 8 => '8' | 9 => '9'
  | _ => '*'

/-- Models Python `str(n)` for a natural number: big-endian decimal digits,
`"0"` for zero. -/
def natRepr (n : Nat) : String :=
  if n = 0 then "0" else ⟨((Nat.digits 10 n).map digitChar).reverse⟩

/-- Models Python `str(i)` for an int: a minus sign followed by the decimal
digits when negative. -/
def intRepr (i : Int) : String :=
  if i < 0 then "-" ++ natRepr i.natAbs else natRepr i.natAbs

/-- Models Python `int(s)` restricted to a run of decimal digits: `none`
(an exception in Python) unless the character list is a non-empty run of
digits. -/
def pyParseDigits (l : List Char) : Option Nat :=
  if l ≠ [] ∧ l.all Char.isDigit then
    some (l.foldl (fun n c => n * 10 + (c.toNat - 48)) 0)
  else none

/-- Models Python `int(s)`: optional sign followed by digits; `none` models
the `ValueError` Python raises otherwise. -/
def pyInt? (s : String) : Option Int :=
  match s.data with
  | [] => none
  | c :: rest =>
    if c = '-' then (pyParseDigits rest).map (fun n => -(n : Int))
    else if c = '+' then (pyParseDigits rest).map (fun n => (n : Int))
    else (pyParseDigits (c :: rest)).map (fun n => (n : Int))

/-! ## Callback payload codec (bot.py lines 105-108, 169-173, 188-191, 214-217) -/

/-- Level token `LEVEL_KEY = "key"` (bot.py line 72). -/
def LEVEL_KEY : String := "key"

/-- Level token `LEVEL_REP1 = "rep1"` (bot.py line 73). -/
def LEVEL_REP1 : String := "rep1"

/-- Level token `LEVEL_REP2 = "rep2"` (bot.py line 74). -/
def LEVEL_REP2 : String := "rep2"

/-- Payload `f"{LEVEL_KEY}:{key_val_id}::"` (bot.py line 108). -/
def keyCallbackData (kid : Int) : String :=
  LEVEL_KEY ++ ":" ++ intRepr kid ++ "::"

/-- Payload `f"{LEVEL_REP1}:{selected_key_id}:{rep1_val_id}:"` (bot.py line 191). -/
def rep1CallbackData (k r1 : Int) : String :=
  LEVEL_REP1 ++ ":" ++ intRepr k ++ ":" ++ intRepr r1 ++ ":"

/-- Payload `f"{LEVEL_REP2}:{selected_key_id}:{selected_rep1_id}:{rep2_val_id}"` (bot.py line 217). -/
def rep2CallbackData (k r1 r2 : Int) : String :=
  LEVEL_REP2 ++ ":" ++ intRepr k ++ ":" ++ intRepr r1 ++ ":" ++ intRepr r2

/-- Models Python `s.split(':')` (split on every colon, keeping empty
pieces), as used on `query.data` (bot.py line 169). -/
def pySplitColon (s : String) : List String :=
  (s.data.splitOn ':').map (fun cs => String.mk cs)

/-- One token of `data_parts`: `int(tok) if tok else -1`
(bot.py lines 171-173). -/
def parseTok (t : String) : Option Int :=
  if t = "" then some (-1) else pyInt? t

/-- The decoder of `handle_button_press` (bot.py lines 169-173):
`(query.data.split(':') + ['', '', '', ''])[:4]`, then each id token is
parsed with `int`, an empty token standing for `-1`. `none` models the
`ValueError` Python would raise on a malformed id token. -/
def decodeCallbackData (s : String) : Option (String × Int × Int × Int) :=
  match (pySplitColon s ++ ["", "", "", ""]).take 4 with
  | [l, t1, t2, t3] =>
    match parseTok t1, parseTok t2, parseTok t3 with
    | some a, some b, some c => some (l, a, b, c)
    | _, _, _ => none
  | _ => none

/-! ## Display resolution (bot.py lines 175-177) -/

/-- Expression `ID_TO_STRING_MAP.get(selected_key_id, f"ID_Key:{selected_key_id}")`
(bot.py line 175). -/
def keyDisplay (st : Interner) (i : Int) : String :=
  (lookupId st.idToString i).getD ("ID_Key:" ++ intRepr i)

/-- Expression `ID_TO_STRING_MAP.get(selected_rep1_id, f"ID_Rep1:{selected_rep1_id}")
if selected_rep1_id != -1 else ''` (bot.py line 176). -/
def rep1Display (st : Interner) (i : Int) : String :=
  if i ≠ -1 then (lookupId st.idToString i).getD ("ID_Rep1:" ++ intRepr i) else ""

/-- Expression `ID_TO_STRING_MAP.get(selected_rep2_id, f"ID_Rep2:{selected_rep2_id}")
if selected_rep2_id != -1 else ''` (bot.py line 177). -/
def rep2Display (st : Interner) (i : Int) : String :=
  if i ≠ -1 then (lookupId st.idToString i).getD ("ID_Rep2:" ++ intRepr i) else ""

/-! ## Navigation handlers -/

/-- Message `WAIT_FOR_RESPONSE_MESSAGE_JP` (bot.py line 88). -/
def WAIT_FOR_RESPONSE_MESSAGE_JP : String :=
  "\n\n**処理のためしばらくお待ちください。数秒経っても変化がない場合は、再度ボタンをタップしてください。ありがとうございます。**"

/-- An outbound reply: either a new menu (message text plus inline keyboard
of label/callback-data buttons) or a plain terminal message. The chat
transport itself is an external collaborator and is not modelled. -/
inductive Reply where
  | menu (text : String) (keyboard : List (String × String))
  | message (text : String)
deriving DecidableEq

/-- The set built by the loop of `send_initial_key_buttons`
(bot.py lines 100-103): all non-empty `Key` values. -/
def initialKeysDisplay (rows : List Row) : Finset String :=
  rows.foldl (fun s r => if r.Key ≠ "" then insert r.Key s else s) ∅

/-- The keyboard-building loop shared by the three menu levels
(bot.py lines 105-108, 188-191, 214-217): iterate over the `sorted` set of
display values, intern each one and emit a button whose label is the value
and whose payload is produced by `mkPayload` from the value's id. -/
def buildKeyboard (st : Interner) (vals : Finset String) (mkPayload : Int → String) :
    List (String × String) × Interner :=
  (vals.sort (· ≤ ·)).foldl
    (fun acc v =>
      let g := get_or_create_id acc.2 v
      (acc.1 ++ [(v, mkPayload g.1)], g.2))
    ([], st)

/-- Function `send_initial_key_buttons` (bot.py lines 99-113): one button per
distinct non-empty `Key` value, in `sorted` order, each labelled with the
value and carrying payload `key:<id>::`. Returns the keyboard and the
updated interner. -/
def send_initial_key_buttons (st : Interner) (rows : List Row) :
    List (String × String) × Interner :=
  buildKeyboard st (initialKeysDisplay rows) keyCallbackData

/-- The set built by the `LEVEL_KEY` branch (bot.py lines 182-185): all
non-empty `Rep1` values of rows whose interned `Key` id equals the selected
key id. `get_or_create_id` is called on every row's `Key` (threading the
interner state); the `and row["Rep1"]` test short-circuits without further
interner calls. -/
def rep1ValuesDisplay (st : Interner) (rows : List Row) (k : Int) :
    Finset String × Interner :=
  rows.foldl
    (fun acc r =>
      let g := get_or_create_id acc.2 r.Key
      if g.1 = k ∧ r.Rep1 ≠ "" then (insert r.Rep1 acc.1, g.2) else (acc.1, g.2))
    (∅, st)

/-- The set built by the `LEVEL_REP1` branch (bot.py lines 207-211):
non-empty `Rep2` values of rows matching the selected key and rep1 ids.
Python's `and` short-circuits, so `get_or_create_id(row["Rep1"])` runs only
when the `Key` id matched. -/
def rep2ValuesDisplay (st : Interner) (rows : List Row) (k o1 : Int) :
    Finset String × Interner :=
  rows.foldl
    (fun acc r =>
      let g := get_or_create_id acc.2 r.Key
      if g.1 = k then
        let g1 := get_or_create_id g.2 r.Rep1
        if g1.1 = o1 ∧ r.Rep2 ≠ "" then (insert r.Rep2 acc.1, g1.2)
        else (acc.1, g1.2)
      else (acc.1, g.2))
    (∅, st)

/-- The `LEVEL_KEY` branch of `handle_button_press` (bot.py lines 181-204):
a sorted menu of `Rep1` choices when the set is non-empty, otherwise the
terminal "no information" message. -/
def handle_button_press_key_level (st : Interner) (rows : List Row) (k : Int) :
    Reply × Interner :=
  if (rep1ValuesDisplay st rows k).1 ≠ ∅ then
    (Reply.menu ("選択されました: " ++ keyDisplay st k ++ "\n次に進んでください:" ++
        WAIT_FOR_RESPONSE_MESSAGE_JP)
      (buildKeyboard (rep1ValuesDisplay st rows k).2 (rep1ValuesDisplay st rows k).1
        (rep1CallbackData k)).1,
      (buildKeyboard (rep1ValuesDisplay st rows k).2 (rep1ValuesDisplay st rows k).1
        (rep1CallbackData k)).2)
  else
    (Reply.message ("選択されました: " ++ keyDisplay st k ++ "\n情報が見つかりません。"),
      (rep1ValuesDisplay st rows k).2)

/-- The `LEVEL_REP1` branch of `handle_button_press` (bot.py lines 206-230):
a sorted menu of `Rep2` choices when the set is non-empty, otherwise the
terminal "no information" message. -/
def handle_button_press_rep1_level (st : Interner) (rows : List Row) (k o1 : Int) :
    Reply × Interner :=
  if (rep2ValuesDisplay st rows k o1).1 ≠ ∅ then
    (Reply.menu ("選択されました: " ++ rep1Display st o1 ++ "\n次に進んでください:" ++
        WAIT_FOR_RESPONSE_MESSAGE_JP)
      (buildKeyboard (rep2ValuesDisplay st rows k o1).2 (rep2ValuesDisplay st rows k o1).1
        (rep2CallbackData k o1)).1,
      (buildKeyboard (rep2ValuesDisplay st rows k o1).2 (rep2ValuesDisplay st rows k o1).1
        (rep2CallbackData k o1)).2)
  else
    (Reply.message ("選択されました: " ++ rep1Display st o1 ++ "\n情報が見つかりません。"),
      (rep2ValuesDisplay st rows k o1).2)

/-- The lookup loop of the `LEVEL_REP2` branch (bot.py lines 232-239):
`final_rep3_text` starts as the fixed no-information message and becomes the
`Rep3` of the first row whose three interned ids match the selection
(`break`). Python's `and` short-circuits, so later `get_or_create_id` calls
happen only when the earlier ids matched. -/
def final_rep3_text (st : Interner) (rows : List Row) (k o1 o2 : Int) :
    String × Interner :=
  match rows with
  | [] => ("情報が見つかりません。", st)
  | r :: rest =>
    let g := get_or_create_id st r.Key
    if g.1 = k then
      let g1 := get_or_create_id g.2 r.Rep1
      if g1.1 = o1 then
        let g2 := get_or_create_id g1.2 r.Rep2
        if g2.1 = o2 then (r.Rep3, g2.2)
        else final_rep3_text g2.2 rest k o1 o2
      else final_rep3_text g1.2 rest k o1 o2
    else final_rep3_text g.2 rest k o1 o2

/-! ## Channel lifecycle (bot.py lines 85, 144-162, 252-331) -/

/-- Constant `KICK_DELAY_SECONDS = 30 * 60` (bot.py line 85). -/
def KICK_DELAY_SECONDS : Nat := 30 * 60

/-- The platform operation performed by the kick task:
`context.bot.unban_chat_member(chat_id, user_id)` — Telegram's
kick-then-immediately-allow-rejoin removal (bot.py lines 153-156). -/
inductive KickOp where
  | unbanChatMember (chatId : String) (userId : Int)
deriving DecidableEq

/-- A scheduled revocation: how long the task sleeps before performing its
platform operation. -/
structure KickTask where
  delaySeconds : Nat
  op : KickOp
deriving DecidableEq

/-- Function `schedule_kick_user` (bot.py lines 144-162): if `ADMIN_CHAT_ID` is set
(non-empty) and the user id stringifies to it, return without doing
anything; otherwise sleep `KICK_DELAY_SECONDS` and call
`unban_chat_member`. `none` models the early return (no removal ever
performed); the sleep and the platform call are abstracted into the
returned task. -/
def schedule_kick_user (adminChatId channelChatId : String) (userIdToKick : Int) :
    Option KickTask :=
  if adminChatId ≠ "" ∧ intRepr userIdToKick = adminChatId then none
  else some ⟨KICK_DELAY_SECONDS, KickOp.unbanChatMember channelChatId userIdToKick⟩

/-- Outcome of the channel-grant attempt (bot.py lines 255-311), i.e. which
of the `try`/`except` paths the external platform calls took. -/
inductive GrantOutcome where
  | alreadyMember
  | addedOk
  | badRequestUserNotFound
  | badRequestAlreadyMember
  | badRequestOther
  | telegramError
  | otherError
deriving DecidableEq

/-- The paths that set `user_is_member_of_channel = True`
(bot.py lines 261, 271, 279). -/
def userIsMemberAfterGrant : GrantOutcome → Bool
  | .alreadyMember => true
  | .addedOk => true
  | .badRequestAlreadyMember => true
  | _ => false

/-- The audit-and-kick block of the terminal branch (bot.py lines 255,
313-328): nothing happens when `CHANNEL_CHAT_ID` is unset; otherwise the
audit `send_message` is attempted, and only when it succeeds
(`auditPostOk`) and `user_is_member_of_channel` is set does
`asyncio.create_task(schedule_kick_user(...))` run. Returns the revocation
task that ends up scheduled to act, if any. -/
def terminalKickTask (channelChatId adminChatId : String) (userId : Int)
    (grant : GrantOutcome) (auditPostOk : Bool) : Option KickTask :=
  if channelChatId = "" then none
  else if auditPostOk then
    if userIsMemberAfterGrant grant then
      schedule_kick_user adminChatId channelChatId userId
    else none
  else none

/-! ## Rate limiter (spec §4.4) -/

/-- Modelled from the spec: the repository source under `src/` contains no
rate limiter (spec §4.4 and §9 describe one, but `bot.py` never throttles);
this is the contract of spec §4.4 — a per-user queue of request timestamps,
pruned of entries older than the sliding window before counting, admitting
iff fewer than the configured maximum remain. -/
structure RateLimiter where
  maxRequests : Nat
  windowSeconds : Nat
  timestamps : List Nat
deriving DecidableEq

/-- Modelled from the spec: `admit(userId)` for one user's queue at time
`now` — prune entries older than the window, admit iff fewer than
`maxRequests` remain, recording the admitted request's timestamp. -/
def admitRequest (rl : RateLimiter) (now : Nat) : Bool × RateLimiter :=
  let pruned := rl.timestamps.filter (fun t => now < t + rl.windowSeconds)
  if pruned.length < rl.maxRequests then
    (true, { rl with timestamps := pruned ++ [now] })
  else
    (false, { rl with timestamps := pruned })

/-- Run a sequence of requests (their timestamps, in arrival order) through
the rate limiter, returning the admission verdicts. -/
def runAdmits (rl : RateLimiter) : List Nat → List Bool
  | [] => []
  | t :: ts => (admitRequest rl t).1 :: runAdmits (admitRequest rl t).2 ts

/-- How many requests with timestamp in the window `[w, w + win)` were
admitted, given the verdict list. -/
def admittedInWindow (w win : Nat) (times : List Nat) (res : List Bool) : Nat :=
  (times.zip res).countP (fun p => decide (w ≤ p.1 ∧ p.1 < w + win) && p.2)

/-! ## Interner well-formedness -/

/-- Well-formedness of the interner state, as maintained by `bot.py`:
no string key and no id key is bound twice, the two maps are inverse
relations, and every id in use is below `next_id`. -/
abbrev WF (st : Interner) : Prop :=
  (st.stringToId.map Prod.fst).Nodup ∧
  (st.idToString.map Prod.fst).Nodup ∧
  (∀ p ∈ st.stringToId, (p.2, p.1) ∈ st.idToString) ∧
  (∀ q ∈ st.idToString, (q.2, q.1) ∈ st.stringToId) ∧
  (∀ p ∈ st.stringToId, p.2 < st.nextId) ∧
  (∀ q ∈ st.idToString, q.1 < st.nextId)

/-- Predicate for: the row's three columns equal the strings the three ids decode to —
the selection `(k, o1, o2)` decodes (via `ID_TO_STRING_MAP`) exactly to the
`Key`, `Rep1`, `Rep2` values of row `r`. -/
abbrev rowMatchesDecoded (st : Interner) (r : Row) (k o1 o2 : Int) : Prop :=
  lookupId st.idToString k = some r.Key ∧
  lookupId st.idToString o1 = some r.Rep1 ∧
  lookupId st.idToString o2 = some r.Rep2

/-! ## Lemmas about the association-list lookups -/

theorem lookupStr_mem : ∀ {l : List (String × Int)} {s : String} {i : Int},
    lookupStr l s = some i → (s, i) ∈ l := by
  intro l
  induction l with
  | nil => intro s i h; simp [lookupStr] at h
  | cons p rest ih =>
    intro s i h
    obtain ⟨k, v⟩ := p
    rw [lookupStr] at h
    split at h
    case isTrue heq =>
      obtain rfl := heq
      obtain rfl : v = i := Option.some.inj h
      exact List.mem_cons_self _ _
    case isFalse hne =>
      exact List.mem_cons_of_mem _ (ih h)

theorem lookupId_mem : ∀ {l : List (Int × String)} {i : Int} {s : String},
    lookupId l i = some s → (i, s) ∈ l := by
  intro l
  induction l with
  | nil => intro i s h; simp [lookupId] at h
  | cons p rest ih =>
    intro i s h
    obtain ⟨k, v⟩ := p
    rw [lookupId] at h
    split at h
    case isTrue heq =>
      obtain rfl := heq
      obtain rfl : v = s := Option.some.inj h
      exact List.mem_cons_self _ _
    case isFalse hne =>
      exact List.mem_cons_of_mem _ (ih h)

theorem lookupStr_eq_none : ∀ {l : List (String × Int)} {s : String},
    lookupStr l s = none ↔ ∀ p ∈ l, p.1 ≠ s := by
  intro l
  induction l with
  | nil => intro s; simp [lookupStr]
  | cons p rest ih =>
    intro s
    obtain ⟨k, v⟩ := p
    rw [lookupStr]
    by_cases hk : k = s
    · simp [hk]
    · simp [hk, ih]

theorem mem_lookupStr : ∀ {l : List (String × Int)} {s : String} {i : Int},
    (l.map Prod.fst).Nodup → (s, i) ∈ l → lookupStr l s = some i := by
  intro l
  induction l with
  | nil => intro s i _ h; simp at h
  | cons p rest ih =>
    intro s i hnd hmem
    obtain ⟨k, v⟩ := p
    rw [List.map_cons, List.nodup_cons] at hnd
    rw [lookupStr]
    rcases List.mem_cons.1 hmem with heq | hmem'
    · cases heq
      rw [if_pos rfl]
    · by_cases hk : k = s
      · subst hk
        exact absurd (List.mem_map_of_mem Prod.fst hmem') hnd.1
      · rw [if_neg hk]
        exact ih hnd.2 hmem'

theorem mem_lookupId : ∀ {l : List (Int × String)} {i : Int} {s : String},
    (l.map Prod.fst).Nodup → (i, s) ∈ l → lookupId l i = some s := by
  intro l
  induction l with
  | nil => intro i s _ h; simp at h
  | cons p rest ih =>
    intro i s hnd hmem
    obtain ⟨k, v⟩ := p
    rw [List.map_cons, List.nodup_cons] at hnd
    rw [lookupId]
    rcases List.mem_cons.1 hmem with heq | hmem'
    · cases heq
      rw [if_pos rfl]
    · by_cases hk : k = i
      · subst hk
        exact absurd (List.mem_map_of_mem Prod.fst hmem') hnd.1
      · rw [if_neg hk]
        exact ih hnd.2 hmem'

/-! ## Lemmas about `get_or_create_id` -/

theorem get_or_create_id_of_some {st : Interner} {s : String} {i : Int}
    (h : lookupStr st.stringToId s = some i) :
    get_or_create_id st s = (i, st) := by
  unfold get_or_create_id
  rw [h]

theorem get_or_create_id_of_none {st : Interner} {s : String}
    (h : lookupStr st.stringToId s = none) :
    get_or_create_id st s =
      (st.nextId,
        ⟨(s, st.nextId) :: st.stringToId, (st.nextId, s) :: st.idToString,
          st.nextId + 1⟩) := by
  unfold get_or_create_id
  rw [h]

theorem WF_empty : WF Interner.empty := by
  refine ⟨?_, ?_, ?_, ?_, ?_, ?_⟩ <;> simp [Interner.empty]

theorem WF_get_or_create_id {st : Interner} (h : WF st) (s : String) :
    WF (get_or_create_id st s).2 := by
  obtain ⟨h1, h2, h3, h4, h5, h6⟩ := h
  cases hl : lookupStr st.stringToId s with
  | some i =>
    rw [get_or_create_id_of_some hl]
    exact ⟨h1, h2, h3, h4, h5, h6⟩
  | none =>
    rw [get_or_create_id_of_none hl]
    have hsnot : s ∉ st.stringToId.map Prod.fst := by
      intro hmem
      obtain ⟨p, hp, hps⟩ := List.mem_map.1 hmem
      exact (lookupStr_eq_none.1 hl p hp) hps
    have hidnot : st.nextId ∉ st.idToString.map Prod.fst := by
      intro hmem
      obtain ⟨q, hq, hqi⟩ := List.mem_map.1 hmem
      have := h6 q hq
      omega
    refine ⟨?_, ?_, ?_, ?_, ?_, ?_⟩
    · exact List.nodup_cons.2 ⟨hsnot, h1⟩
    · exact List.nodup_cons.2 ⟨hidnot, h2⟩
    · intro p hp
      rcases List.mem_cons.1 hp with rfl | hp'
      · exact List.mem_cons_self _ _
      · exact List.mem_cons_of_mem _ (h3 p hp')
    · intro q hq
      rcases List.mem_cons.1 hq with rfl | hq'
      · exact List.mem_cons_self _ _
      · exact List.mem_cons_of_mem _ (h4 q hq')
    · intro p hp
      rcases List.mem_cons.1 hp with rfl | hp'
      · simp only
        omega
      · have := h5 p hp'
        show p.2 < st.nextId + 1
        omega
    · intro q hq
      rcases List.mem_cons.1 hq with rfl | hq'
      · simp only
        omega
      · have := h6 q hq'
        show q.1 < st.nextId + 1
        omega

/-- In a well-formed interner the two maps are inverse lookups. -/
theorem WF.lookup_iff {st : Interner} (h : WF st) {s : String} {i : Int} :
    lookupStr st.stringToId s = some i ↔ lookupId st.idToString i = some s := by
  obtain ⟨h1, h2, h3, h4, _, _⟩ := h
  constructor
  · intro hs
    exact mem_lookupId h2 (h3 _ (lookupStr_mem hs))
  · intro hi
    exact mem_lookupStr h1 (h4 _ (lookupId_mem hi))

/-- Looking up a string just interned succeeds with the returned id. -/
theorem lookupStr_self_get_or_create_id (st : Interner) (s : String) :
    lookupStr (get_or_create_id st s).2.stringToId s =
      some (get_or_create_id st s).1 := by
  cases hl : lookupStr st.stringToId s with
  | some j =>
    rw [get_or_create_id_of_some hl]
    exact hl
  | none =>
    rw [get_or_create_id_of_none hl]
    show lookupStr ((s, st.nextId) :: st.stringToId) s = some st.nextId
    rw [lookupStr, if_pos rfl]

/-- An existing string binding survives any further `get_or_create_id`. -/
theorem lookupStr_get_or_create_id {st : Interner} {s' : String} {i : Int}
    (hs' : lookupStr st.stringToId s' = some i) (s : String) :
    lookupStr (get_or_create_id st s).2.stringToId s' = some i := by
  cases hl : lookupStr st.stringToId s with
  | some j =>
    rw [get_or_create_id_of_some hl]
    exact hs'
  | none =>
    rw [get_or_create_id_of_none hl]
    show lookupStr ((s, st.nextId) :: st.stringToId) s' = some i
    rw [lookupStr, if_neg]
    · exact hs'
    · intro heq
      subst heq
      rw [hs'] at hl
      cases hl

/-- An existing id binding survives any further `get_or_create_id`. -/
theorem lookupId_get_or_create_id {st : Interner} (h : WF st) {i : Int}
    {t : String} (hi : lookupId st.idToString i = some t) (s : String) :
    lookupId (get_or_create_id st s).2.idToString i = some t := by
  cases hl : lookupStr st.stringToId s with
  | some j =>
    rw [get_or_create_id_of_some hl]
    exact hi
  | none =>
    rw [get_or_create_id_of_none hl]
    show lookupId ((st.nextId, s) :: st.idToString) i = some t
    rw [lookupId, if_neg]
    · exact hi
    · have := h.2.2.2.2.2 _ (lookupId_mem hi)
      omega

/-- A fresh id handed out by `get_or_create_id` was not previously bound. -/
theorem lookupId_fresh {st : Interner} (h : WF st) {s : String}
    (hl : lookupStr st.stringToId s = none) :
    lookupId st.idToString (get_or_create_id st s).1 = none := by
  rw [get_or_create_id_of_none hl]
  show lookupId st.idToString st.nextId = none
  cases hi : lookupId st.idToString st.nextId with
  | none => rfl
  | some t =>
    have := h.2.2.2.2.2 _ (lookupId_mem hi)
    omega

/-- Interning a row's strings preserves well-formedness. -/
theorem WF_internRowStrings {st : Interner} (h : WF st) (r : Row) :
    WF (internRowStrings st r) :=
  WF_get_or_create_id (WF_get_or_create_id (WF_get_or_create_id h r.Key) r.Rep1) r.Rep2

/-- The interner built by the load loop is well-formed. -/
theorem WF_loadMappings (rows : List Row) : WF (loadMappings rows) := by
  have : ∀ (l : List Row) (st : Interner), WF st → WF (l.foldl internRowStrings st) := by
    intro l
    induction l with
    | nil => intro st h; exact h
    | cons r rest ih =>
      intro st h
      exact ih _ (WF_internRowStrings h r)
  exact this rows Interner.empty WF_empty

/-- A string binding survives `internRowStrings`. -/
theorem lookupStr_internRowStrings {st : Interner} {s : String} {i : Int}
    (hs : lookupStr st.stringToId s = some i) (r : Row) :
    lookupStr (internRowStrings st r).stringToId s = some i :=
  lookupStr_get_or_create_id
    (lookupStr_get_or_create_id (lookupStr_get_or_create_id hs r.Key) r.Rep1) r.Rep2

/-- A string binding survives the rest of the load loop. -/
theorem lookupStr_foldl_internRowStrings {s : String} {i : Int} :
    ∀ (l : List Row) (st : Interner), lookupStr st.stringToId s = some i →
      lookupStr (l.foldl internRowStrings st).stringToId s = some i := by
  intro l
  induction l with
  | nil => intro st h; exact h
  | cons r rest ih =>
    intro st h
    exact ih _ (lookupStr_internRowStrings h r)

/-- After `get_or_create_id st s`, `s` has some binding. -/
theorem isSome_lookupStr_get_or_create_id (st : Interner) (s : String) :
    (lookupStr (get_or_create_id st s).2.stringToId s).isSome := by
  rw [lookupStr_self_get_or_create_id]
  rfl

/-- Every `Key`, `Rep1`, `Rep2` value of a loaded row is interned by
`loadMappings`. -/
theorem loadMappings_interns (rows : List Row) :
    ∀ r ∈ rows,
      (lookupStr (loadMappings rows).stringToId r.Key).isSome ∧
      (lookupStr (loadMappings rows).stringToId r.Rep1).isSome ∧
      (lookupStr (loadMappings rows).stringToId r.Rep2).isSome := by
  have main : ∀ (l : List Row) (st : Interner), ∀ r ∈ l,
      (lookupStr (l.foldl internRowStrings st).stringToId r.Key).isSome ∧
      (lookupStr (l.foldl internRowStrings st).stringToId r.Rep1).isSome ∧
      (lookupStr (l.foldl internRowStrings st).stringToId r.Rep2).isSome := by
    intro l
    induction l with
    | nil => intro st r hr; cases hr
    | cons r0 rest ih =>
      intro st r hr
      rcases List.mem_cons.1 hr with rfl | hr'
      · have hkey : (lookupStr (internRowStrings st r).stringToId r.Key).isSome := by
          have h1 := lookupStr_self_get_or_create_id st r.Key
          unfold internRowStrings
          rw [lookupStr_get_or_create_id (lookupStr_get_or_create_id h1 r.Rep1) r.Rep2]
          rfl
        have hrep1 : (lookupStr (internRowStrings st r).stringToId r.Rep1).isSome := by
          have h1 := lookupStr_self_get_or_create_id (get_or_create_id st r.Key).2 r.Rep1
          unfold internRowStrings
          rw [lookupStr_get_or_create_id h1 r.Rep2]
          rfl
        have hrep2 : (lookupStr (internRowStrings st r).stringToId r.Rep2).isSome := by
          unfold internRowStrings
          exact isSome_lookupStr_get_or_create_id _ r.Rep2
        refine ⟨?_, ?_, ?_⟩
        · obtain ⟨j, hj⟩ := Option.isSome_iff_exists.1 hkey
          rw [List.foldl_cons, lookupStr_foldl_internRowStrings rest _ hj]
          rfl
        · obtain ⟨j, hj⟩ := Option.isSome_iff_exists.1 hrep1
          rw [List.foldl_cons, lookupStr_foldl_internRowStrings rest _ hj]
          rfl
        · obtain ⟨j, hj⟩ := Option.isSome_iff_exists.1 hrep2
          rw [List.foldl_cons, lookupStr_foldl_internRowStrings rest _ hj]
          rfl
      · rw [List.foldl_cons]
        exact ih _ r hr'
  exact main rows Interner.empty

/-! ## Concrete decimal representations -/

theorem digits_ten_five : Nat.digits 10 5 = [5] := by
  rw [Nat.digits_def' (by norm_num : (1:ℕ) < 10) (by norm_num : 0 < 5)]
  norm_num

theorem digits_ten_seven : Nat.digits 10 7 = [7] := by
  rw [Nat.digits_def' (by norm_num : (1:ℕ) < 10) (by norm_num : 0 < 7)]
  norm_num

theorem intRepr_five : intRepr 5 = "5" := by
  rw [intRepr, if_neg (by norm_num)]
  show natRepr 5 = "5"
  rw [natRepr, if_neg (by norm_num), digits_ten_five]
  decide

theorem intRepr_seven : intRepr 7 = "7" := by
  rw [intRepr, if_neg (by norm_num)]
  show natRepr 7 = "7"
  rw [natRepr, if_neg (by norm_num), digits_ten_seven]
  decide

/-! ## C5: the interner does not special-case the empty string -/

/-- C5 counterexample: the claim says `idOf("")` returns the sentinel `-1`
and `""` is never interned; in the code `get_or_create_id` treats `""` like
any other string — on the initial state it returns id `0` and records the
binding in `STRING_TO_ID_MAP`. -/
theorem claim_C5_counterexample :
    (get_or_create_id Interner.empty "").1 = 0
    ∧ (get_or_create_id Interner.empty "").1 ≠ -1
    ∧ lookupStr (get_or_create_id Interner.empty "").2.stringToId "" = some 0 := by
  refine ⟨by decide, by decide, by decide⟩

/-- C5 (amended): `get_or_create_id` treats the empty string like any other
string — it interns it and returns its stable id; the `-1` sentinel arises
only in the button-payload decoder, which maps an empty token to `-1`. -/
theorem claim_C5_empty_string (st : Interner) :
    lookupStr (get_or_create_id st "").2.stringToId ""
      = some (get_or_create_id st "").1
    ∧ parseTok "" = some (-1) :=
  ⟨lookupStr_self_get_or_create_id st "", by decide⟩

/-! ## C6: reverse lookup of unknown ids -/

/-- C6 counterexample: the claim says the reverse lookup returns the empty
string for an id that was never assigned; the code's reverse lookups
(bot.py lines 175-177) return the placeholder `"ID_Key:<id>"`
(resp. `"ID_Rep1:<id>"`), which is not empty — shown at the unassigned
id `5` on the initial state. -/
theorem claim_C6_counterexample :
    keyDisplay Interner.empty 5 = "ID_Key:5"
    ∧ keyDisplay Interner.empty 5 ≠ ""
    ∧ rep1Display Interner.empty 5 = "ID_Rep1:5"
    ∧ rep1Display Interner.empty 5 ≠ "" := by
  have h1 : keyDisplay Interner.empty 5 = "ID_Key:" ++ intRepr 5 := by
    rw [keyDisplay]
    rfl
  have h2 : rep1Display Interner.empty 5 = "ID_Rep1:" ++ intRepr 5 := by
    rw [rep1Display, if_pos (by decide)]
    rfl
  rw [h1, h2, intRepr_five]
  refine ⟨by decide, by decide, by decide, by decide⟩

/-- C6 (amended): for an id with no binding the reverse lookups never fail,
but they return the placeholder string `"ID_Key:<id>"`
(resp. `"ID_Rep1:<id>"`, `"ID_Rep2:<id>"`), not the empty string — except
that the `-1` sentinel at the Rep1/Rep2 positions yields `""`. -/
theorem claim_C6_unknown_id_placeholder (st : Interner) (i : Int)
    (h : lookupId st.idToString i = none) :
    keyDisplay st i = "ID_Key:" ++ intRepr i
    ∧ rep1Display st i = (if i = -1 then "" else "ID_Rep1:" ++ intRepr i)
    ∧ rep2Display st i = (if i = -1 then "" else "ID_Rep2:" ++ intRepr i) := by
  refine ⟨?_, ?_, ?_⟩
  · rw [keyDisplay, h]
    rfl
  · rw [rep1Display]
    by_cases hi : i = -1
    · rw [if_neg (by simpa using hi), if_pos hi]
    · rw [if_pos hi, if_neg hi, h]
      rfl
  · rw [rep2Display]
    by_cases hi : i = -1
    · rw [if_neg (by simpa using hi), if_pos hi]
    · rw [if_pos hi, if_neg hi, h]
      rfl

/-- Witness for the amended C6 at the concrete unassigned id `5`. -/
theorem claim_C6_witness :
    lookupId Interner.empty.idToString 5 = none
    ∧ keyDisplay Interner.empty 5 = "ID_Key:" ++ intRepr 5 :=
  ⟨by decide, (claim_C6_unknown_id_placeholder Interner.empty 5 (by decide)).1⟩

/-! ## C7: interning is a stable bijection -/

/-- C7: interning is a bijection on encountered strings — after
`get_or_create_id st s` the returned id resolves back to `s`; a repeated
call returns the same id and leaves the state unchanged; every existing
id binding survives the call (ids are never reassigned); and a freshly
assigned id was never previously bound (ids are never reused). -/
theorem claim_C7_interning_bijection (st : Interner) (s : String)
    (hwf : WF st) (_hs : s ≠ "") :
    lookupId (get_or_create_id st s).2.idToString (get_or_create_id st s).1 = some s
    ∧ get_or_create_id (get_or_create_id st s).2 s
        = ((get_or_create_id st s).1, (get_or_create_id st s).2)
    ∧ (∀ i t, lookupId st.idToString i = some t →
        lookupId (get_or_create_id st s).2.idToString i = some t)
    ∧ (lookupStr st.stringToId s = none →
        lookupId st.idToString (get_or_create_id st s).1 = none) := by
  refine ⟨?_, ?_, ?_, ?_⟩
  · exact (WF.lookup_iff (WF_get_or_create_id hwf s)).1
      (lookupStr_self_get_or_create_id st s)
  · exact get_or_create_id_of_some (lookupStr_self_get_or_create_id st s)
  · intro i t hi
    exact lookupId_get_or_create_id hwf hi s
  · intro hnone
    exact lookupId_fresh hwf hnone

/-- Witness for C7 on the initial state and the string `"Tokyo"`. -/
theorem claim_C7_witness :
    WF Interner.empty ∧ ("Tokyo" : String) ≠ ""
    ∧ lookupId (get_or_create_id Interner.empty "Tokyo").2.idToString
        (get_or_create_id Interner.empty "Tokyo").1 = some "Tokyo" :=
  ⟨by decide, by decide,
    (claim_C7_interning_bijection Interner.empty "Tokyo" (by decide) (by decide)).1⟩

/-! ## C3: the administrator is never kicked -/

/-- C3: for every terminal selection by the configured administrator id
(any grant outcome, any audit outcome, any channel), no revocation is ever
performed on that id — `schedule_kick_user` returns without calling
`unban_chat_member`, and hence the terminal flow ends with no kick task
acting on the administrator. -/
theorem claim_C3_admin_never_kicked (adminChatId channelChatId : String)
    (userId : Int) (grant : GrantOutcome) (auditPostOk : Bool)
    (hconf : adminChatId ≠ "") (hid : intRepr userId = adminChatId) :
    schedule_kick_user adminChatId channelChatId userId = none
    ∧ terminalKickTask channelChatId adminChatId userId grant auditPostOk = none := by
  have hsched : schedule_kick_user adminChatId channelChatId userId = none := by
    rw [schedule_kick_user, if_pos ⟨hconf, hid⟩]
  refine ⟨hsched, ?_⟩
  rw [terminalKickTask]
  by_cases hc : channelChatId = ""
  · rw [if_pos hc]
  · rw [if_neg hc]
    cases auditPostOk with
    | false => rfl
    | true =>
      rw [if_pos rfl]
      cases hm : userIsMemberAfterGrant grant with
      | false => rw [if_neg (by simp [hm])]
      | true => rw [if_pos (by simp [hm]), hsched]

/-- Witness for C3: administrator id `5` with `ADMIN_CHAT_ID = "5"`. -/
theorem claim_C3_witness :
    ("5" : String) ≠ "" ∧ intRepr 5 = "5"
    ∧ terminalKickTask "channel" "5" 5 GrantOutcome.addedOk true = none :=
  ⟨by decide, intRepr_five,
    (claim_C3_admin_never_kicked "5" "channel" 5 GrantOutcome.addedOk true
      (by decide) intRepr_five).2⟩

/-! ## C4: when is the revocation actually scheduled? -/

/-- C4 counterexample: the claim says that after a successful grant for a
non-administrator the revocation is scheduled "with no further condition
(in particular, not conditional on the audit message being posted
successfully)". In the code the `create_task(schedule_kick_user(...))` call
sits inside the `try` block *after* `send_message` (bot.py lines 313-324),
so when the audit post fails no revocation is scheduled: concretely, with
channel `"chan"`, administrator `"999"`, user `7`, a successful grant and a
failed audit post, no kick task exists. -/
theorem claim_C4_counterexample :
    userIsMemberAfterGrant GrantOutcome.addedOk = true
    ∧ intRepr 7 ≠ "999"
    ∧ terminalKickTask "chan" "999" 7 GrantOutcome.addedOk false = none := by
  refine ⟨rfl, ?_, ?_⟩
  · rw [intRepr_seven]
    decide
  · rw [terminalKickTask, if_neg (by decide)]
    rfl

/-- C4 (amended): if the user is a channel member after the grant step, the
user id is not the configured administrator id, the channel is configured,
and *additionally the audit message was posted successfully*, then a
revocation is scheduled that removes the user via `unban_chat_member`
(kick-then-allow-rejoin) after `KICK_DELAY_SECONDS = 30 * 60` seconds;
when the audit post fails, no revocation is scheduled. -/
theorem claim_C4_kick_after_audit (channelChatId adminChatId : String)
    (userId : Int) (grant : GrantOutcome)
    (hch : channelChatId ≠ "")
    (hmem : userIsMemberAfterGrant grant = true)
    (hnotadmin : ¬(adminChatId ≠ "" ∧ intRepr userId = adminChatId)) :
    terminalKickTask channelChatId adminChatId userId grant true
      = some ⟨KICK_DELAY_SECONDS, KickOp.unbanChatMember channelChatId userId⟩
    ∧ terminalKickTask channelChatId adminChatId userId grant false = none := by
  constructor
  · rw [terminalKickTask, if_neg hch, if_pos rfl, if_pos hmem, schedule_kick_user,
      if_neg hnotadmin]
  · rw [terminalKickTask, if_neg hch]
    rfl

/-- Witness for the amended C4: non-administrator user `7`, configured
administrator `"999"`, configured channel `"chan"`, successful grant. -/
theorem claim_C4_witness :
    ("chan" : String) ≠ ""
    ∧ userIsMemberAfterGrant GrantOutcome.addedOk = true
    ∧ ¬(("999" : String) ≠ "" ∧ intRepr 7 = "999")
    ∧ terminalKickTask "chan" "999" 7 GrantOutcome.addedOk true
        = some ⟨KICK_DELAY_SECONDS, KickOp.unbanChatMember "chan" 7⟩ := by
  have hna : ¬(("999" : String) ≠ "" ∧ intRepr 7 = "999") := by
    rw [intRepr_seven]
    decide
  exact ⟨by decide, rfl, hna,
    (claim_C4_kick_after_audit "chan" "999" 7 GrantOutcome.addedOk
      (by decide) rfl hna).1⟩

/-! ## C9: dead-end selections -/

/-- C9: when the set of child option values of a selection is empty (a
dead-end key, or a dead-end key/option1 pair), the handler emits the
terminal "no information" message instead of a menu transition — and, being
a total function, it cannot crash. -/
theorem claim_C9_dead_end (st : Interner) (rows : List Row) (k o1 : Int)
    (h1 : (rep1ValuesDisplay st rows k).1 = ∅)
    (h2 : (rep2ValuesDisplay st rows k o1).1 = ∅) :
    (handle_button_press_key_level st rows k).1
      = Reply.message ("選択されました: " ++ keyDisplay st k ++ "\n情報が見つかりません。")
    ∧ (handle_button_press_rep1_level st rows k o1).1
      = Reply.message ("選択されました: " ++ rep1Display st o1 ++ "\n情報が見つかりません。") := by
  constructor
  · rw [handle_button_press_key_level, if_neg (by simp [h1])]
  · rw [handle_button_press_rep1_level, if_neg (by simp [h2])]

/-- Witness for C9: the empty table is a dead end at every selection. -/
theorem claim_C9_witness :
    (rep1ValuesDisplay Interner.empty [] 0).1 = ∅
    ∧ (rep2ValuesDisplay Interner.empty [] 0 1).1 = ∅
    ∧ (handle_button_press_key_level Interner.empty [] 0).1
        = Reply.message ("選択されました: " ++ keyDisplay Interner.empty 0 ++
            "\n情報が見つかりません。") :=
  ⟨rfl, rfl,
    (claim_C9_dead_end Interner.empty [] 0 1 rfl rfl).1⟩

/-! ## C8: the top-level menu enumeration -/

/-- The labels of a built keyboard are exactly the sorted values. -/
theorem buildKeyboard_labels (vals : Finset String) (mkPayload : Int → String) :
    ∀ (st : Interner), (buildKeyboard st vals mkPayload).1.map Prod.fst
      = vals.sort (· ≤ ·) := by
  have main : ∀ (l : List String) (acc : List (String × String)) (st : Interner),
      ((l.foldl (fun acc v =>
          let g := get_or_create_id acc.2 v
          (acc.1 ++ [(v, mkPayload g.1)], g.2)) (acc, st)).1).map Prod.fst
        = acc.map Prod.fst ++ l := by
    intro l
    induction l with
    | nil => intro acc st; simp
    | cons v rest ih =>
      intro acc st
      rw [List.foldl_cons]
      simp only []
      rw [ih]
      simp
  intro st
  rw [buildKeyboard]
  have := main (vals.sort (· ≤ ·)) [] st
  simpa using this

/-- Membership in the key-set accumulator loop. -/
theorem mem_initialKeysDisplay_aux :
    ∀ (rows : List Row) (acc : Finset String) (s : String),
      s ∈ rows.foldl (fun t r => if r.Key ≠ "" then insert r.Key t else t) acc
        ↔ s ∈ acc ∨ (s ≠ "" ∧ ∃ r ∈ rows, r.Key = s) := by
  intro rows
  induction rows with
  | nil => intro acc s; simp
  | cons r rest ih =>
    intro acc s
    rw [List.foldl_cons]
    by_cases hk : r.Key = ""
    · rw [if_neg (by simp [hk]), ih]
      constructor
      · rintro (h | ⟨hs, r', hr', hkey⟩)
        · exact Or.inl h
        · exact Or.inr ⟨hs, r', List.mem_cons_of_mem _ hr', hkey⟩
      · rintro (h | ⟨hs, r', hr', hkey⟩)
        · exact Or.inl h
        · rcases List.mem_cons.1 hr' with rfl | hr''
          · exact absurd (hk.symm.trans hkey).symm hs
          · exact Or.inr ⟨hs, r', hr'', hkey⟩
    · rw [if_pos (by simp [hk]), ih]
      constructor
      · rintro (h | ⟨hs, r', hr', hkey⟩)
        · rcases Finset.mem_insert.1 h with rfl | h'
          · exact Or.inr ⟨hk, r, List.mem_cons_self _ _, rfl⟩
          · exact Or.inl h'
        · exact Or.inr ⟨hs, r', List.mem_cons_of_mem _ hr', hkey⟩
      · rintro (h | ⟨hs, r', hr', hkey⟩)
        · exact Or.inl (Finset.mem_insert_of_mem h)
        · rcases List.mem_cons.1 hr' with rfl | hr''
          · exact Or.inl (by rw [← hkey]; exact Finset.mem_insert_self _ _)
          · exact Or.inr ⟨hs, r', hr'', hkey⟩

/-- Membership description of `initialKeysDisplay`. -/
theorem mem_initialKeysDisplay (rows : List Row) (s : String) :
    s ∈ initialKeysDisplay rows ↔ s ≠ "" ∧ ∃ r ∈ rows, r.Key = s := by
  rw [initialKeysDisplay, mem_initialKeysDisplay_aux]
  simp

/-- C8: the top-level menu labels are exactly the distinct non-empty `Key`
values of the table, sorted lexicographically with no duplicates, and the
enumeration is identical for any permutation of the table's rows and for
any interner state. -/
theorem claim_C8_initial_menu (st st' : Interner) (rows rows' : List Row)
    (hperm : rows.Perm rows') :
    ((send_initial_key_buttons st rows).1.map Prod.fst).Sorted (· ≤ ·)
    ∧ ((send_initial_key_buttons st rows).1.map Prod.fst).Nodup
    ∧ (∀ s, s ∈ (send_initial_key_buttons st rows).1.map Prod.fst
        ↔ s ≠ "" ∧ s ∈ rows.map Row.Key)
    ∧ (send_initial_key_buttons st rows).1.map Prod.fst
        = (send_initial_key_buttons st' rows').1.map Prod.fst := by
  have hset : initialKeysDisplay rows = initialKeysDisplay rows' := by
    apply Finset.ext
    intro s
    rw [mem_initialKeysDisplay, mem_initialKeysDisplay]
    constructor
    · rintro ⟨hs, r, hr, hk⟩
      exact ⟨hs, r, hperm.mem_iff.1 hr, hk⟩
    · rintro ⟨hs, r, hr, hk⟩
      exact ⟨hs, r, hperm.mem_iff.2 hr, hk⟩
  have hlab : (send_initial_key_buttons st rows).1.map Prod.fst
      = (initialKeysDisplay rows).sort (· ≤ ·) := by
    rw [send_initial_key_buttons, buildKeyboard_labels]
  have hlab' : (send_initial_key_buttons st' rows').1.map Prod.fst
      = (initialKeysDisplay rows').sort (· ≤ ·) := by
    rw [send_initial_key_buttons, buildKeyboard_labels]
  refine ⟨?_, ?_, ?_, ?_⟩
  · rw [hlab]
    exact Finset.sort_sorted _ _
  · rw [hlab]
    exact Finset.sort_nodup _ _
  · intro s
    rw [hlab, Finset.mem_sort, mem_initialKeysDisplay]
    simp
  · rw [hlab, hlab', hset]

/-- Witness for C8: two rows swapped; the menu is `["A", "B"]` both ways. -/
theorem claim_C8_witness :
    (([⟨"B", "", "", ""⟩, ⟨"A", "x", "", ""⟩] : List Row).Perm
      [⟨"A", "x", "", ""⟩, ⟨"B", "", "", ""⟩])
    ∧ (send_initial_key_buttons Interner.empty
        [⟨"B", "", "", ""⟩, ⟨"A", "x", "", ""⟩]).1.map Prod.fst
      = (send_initial_key_buttons Interner.empty
        [⟨"A", "x", "", ""⟩, ⟨"B", "", "", ""⟩]).1.map Prod.fst :=
  ⟨List.Perm.swap _ _ _,
    (claim_C8_initial_menu Interner.empty Interner.empty
      [⟨"B", "", "", ""⟩, ⟨"A", "x", "", ""⟩]
      [⟨"A", "x", "", ""⟩, ⟨"B", "", "", ""⟩]
      (List.Perm.swap _ _ _)).2.2.2⟩

/-! ## C1: the terminal (Rep3) lookup -/

/-- For an interned string, the code's id-equality test is equivalent to
"the candidate id decodes to that string". -/
theorem interned_id_eq_iff {st : Interner} (hwf : WF st) {s : String} {j : Int}
    (hs : lookupStr st.stringToId s = some j) (k : Int) :
    j = k ↔ lookupId st.idToString k = some s := by
  constructor
  · rintro rfl
    exact hwf.lookup_iff.1 hs
  · intro hk
    exact Option.some.inj (hs.symm.trans (hwf.lookup_iff.2 hk))

/-- The `LEVEL_REP2` lookup loop, on a table all of whose row strings are
interned, returns the `Rep3` of the first row whose three columns are the
decoded selection, or the fixed no-information message, and leaves the
interner unchanged. -/
theorem final_rep3_spec (st : Interner) (hwf : WF st) :
    ∀ (rows : List Row),
      (∀ r ∈ rows, (lookupStr st.stringToId r.Key).isSome ∧
        (lookupStr st.stringToId r.Rep1).isSome ∧
        (lookupStr st.stringToId r.Rep2).isSome) →
      ∀ k o1 o2 : Int,
      final_rep3_text st rows k o1 o2
        = ((match rows.find? (fun r => decide (rowMatchesDecoded st r k o1 o2)) with
            | some r => r.Rep3
            | none => "情報が見つかりません。"), st) := by
  intro rows
  induction rows with
  | nil =>
    intro _ k o1 o2
    rfl
  | cons r rest ih =>
    intro hint k o1 o2
    obtain ⟨hK, hR1, hR2⟩ := hint r (List.mem_cons_self _ _)
    obtain ⟨kid, hkid⟩ := Option.isSome_iff_exists.1 hK
    obtain ⟨r1id, hr1id⟩ := Option.isSome_iff_exists.1 hR1
    obtain ⟨r2id, hr2id⟩ := Option.isSome_iff_exists.1 hR2
    have hrest := fun r' hr' => hint r' (List.mem_cons_of_mem _ hr')
    rw [final_rep3_text, get_or_create_id_of_some hkid]
    simp only []
    by_cases h1 : kid = k
    · rw [if_pos h1, get_or_create_id_of_some hr1id]
      simp only []
      by_cases h2 : r1id = o1
      · rw [if_pos h2, get_or_create_id_of_some hr2id]
        simp only []
        by_cases h3 : r2id = o2
        · rw [if_pos h3]
          have hmatch : rowMatchesDecoded st r k o1 o2 :=
            ⟨(interned_id_eq_iff hwf hkid k).1 h1,
             (interned_id_eq_iff hwf hr1id o1).1 h2,
             (interned_id_eq_iff hwf hr2id o2).1 h3⟩
          have hpa : decide (rowMatchesDecoded st r k o1 o2) = true := by
            simpa using hmatch
          simp only [List.find?, hpa]
        · rw [if_neg h3, ih hrest k o1 o2]
          have hnomatch : ¬ rowMatchesDecoded st r k o1 o2 := by
            rintro ⟨-, -, hm3⟩
            exact h3 ((interned_id_eq_iff hwf hr2id o2).2 hm3)
          have hpa : decide (rowMatchesDecoded st r k o1 o2) = false := by
            rw [decide_eq_false_iff_not]
            exact hnomatch
          simp only [List.find?, hpa]
      · rw [if_neg h2, ih hrest k o1 o2]
        have hnomatch : ¬ rowMatchesDecoded st r k o1 o2 := by
          rintro ⟨-, hm2, -⟩
          exact h2 ((interned_id_eq_iff hwf hr1id o1).2 hm2)
        have hpa : decide (rowMatchesDecoded st r k o1 o2) = false := by
          rw [decide_eq_false_iff_not]
          exact hnomatch
        simp only [List.find?, hpa]
    · rw [if_neg h1, ih hrest k o1 o2]
      have hnomatch : ¬ rowMatchesDecoded st r k o1 o2 := by
        rintro ⟨hm1, -, -⟩
        exact h1 ((interned_id_eq_iff hwf hkid k).2 hm1)
      have hpa : decide (rowMatchesDecoded st r k o1 o2) = false := by
        rw [decide_eq_false_iff_not]
        exact hnomatch
      simp only [List.find?, hpa]

/-- C1: at the `Option2` (Rep2) level with the interner built from the
table, the lookup returns the `Rep3` value of the row whose `Key`, `Rep1`,
`Rep2` columns equal the strings the three selected ids decode to (when
that row is unique), and returns the fixed "no information" terminal value
when no row matches all three. -/
theorem claim_C1_terminal_lookup (rows : List Row) (k o1 o2 : Int) :
    ((∀ r ∈ rows, ¬ rowMatchesDecoded (loadMappings rows) r k o1 o2) →
      (final_rep3_text (loadMappings rows) rows k o1 o2).1 = "情報が見つかりません。")
    ∧ (∀ r ∈ rows, rowMatchesDecoded (loadMappings rows) r k o1 o2 →
        (∀ r' ∈ rows, rowMatchesDecoded (loadMappings rows) r' k o1 o2 → r' = r) →
        (final_rep3_text (loadMappings rows) rows k o1 o2).1 = r.Rep3) := by
  have hspec := final_rep3_spec (loadMappings rows) (WF_loadMappings rows) rows
    (loadMappings_interns rows) k o1 o2
  constructor
  · intro hnone
    rw [hspec]
    have hfind : rows.find?
        (fun r => decide (rowMatchesDecoded (loadMappings rows) r k o1 o2)) = none := by
      rw [List.find?_eq_none]
      intro r hr
      simpa using hnone r hr
    rw [hfind]
  · intro r hr hmatch huniq
    have hex : (rows.find?
        (fun r => decide (rowMatchesDecoded (loadMappings rows) r k o1 o2))).isSome := by
      rw [List.find?_isSome]
      exact ⟨r, hr, by simpa using hmatch⟩
    obtain ⟨r'', hfind⟩ := Option.isSome_iff_exists.1 hex
    have hr''mem : r'' ∈ rows := List.mem_of_find?_eq_some hfind
    have hr''match : rowMatchesDecoded (loadMappings rows) r'' k o1 o2 := by
      simpa using List.find?_some hfind
    obtain rfl := huniq r'' hr''mem hr''match
    rw [hspec, hfind]

/-- Witness for C1 on the two-row demo table of spec §8 Scenario A:
the ids `(0, 1, 2)` decode to `("Tokyo", "Koto", "AddrY")` and the lookup
returns `"102"`. -/
theorem claim_C1_witness :
    rowMatchesDecoded
      (loadMappings [⟨"Tokyo", "Koto", "AddrY", "102"⟩, ⟨"Tokyo", "Edogawa", "AddrZ", "201"⟩])
      ⟨"Tokyo", "Koto", "AddrY", "102"⟩ 0 1 2
    ∧ (final_rep3_text
        (loadMappings [⟨"Tokyo", "Koto", "AddrY", "102"⟩, ⟨"Tokyo", "Edogawa", "AddrZ", "201"⟩])
        [⟨"Tokyo", "Koto", "AddrY", "102"⟩, ⟨"Tokyo", "Edogawa", "AddrZ", "201"⟩]
        0 1 2).1 = "102" :=
  ⟨by decide,
    (claim_C1_terminal_lookup
      [⟨"Tokyo", "Koto", "AddrY", "102"⟩, ⟨"Tokyo", "Edogawa", "AddrZ", "201"⟩] 0 1 2).2
      ⟨"Tokyo", "Koto", "AddrY", "102"⟩ (by decide) (by decide) (by decide)⟩

/-! ## C10: payload encode/decode round-trip -/

theorem digitChar_isDigit {d : Nat} (h : d < 10) : (digitChar d).isDigit = true := by
  interval_cases d <;> decide

theorem digitChar_toNat {d : Nat} (h : d < 10) : (digitChar d).toNat - 48 = d := by
  interval_cases d <;> decide

theorem isDigit_ne {c : Char} (h : c.isDigit = true) :
    c ≠ '-' ∧ c ≠ '+' ∧ c ≠ ':' := by
  refine ⟨?_, ?_, ?_⟩ <;> rintro rfl <;> simp at h

/-- Parsing the big-endian decimal digit characters of a digit list recovers
its value. -/
theorem foldl_parse_digits :
    ∀ (L : List Nat), (∀ d ∈ L, d < 10) →
      ((L.map digitChar).reverse).foldl (fun n c => n * 10 + (c.toNat - 48)) 0
        = Nat.ofDigits 10 L := by
  intro L
  induction L with
  | nil => intro _; simp [Nat.ofDigits]
  | cons d L' ih =>
    intro h
    have hd : d < 10 := h d (List.mem_cons_self _ _)
    have hL' : ∀ x ∈ L', x < 10 := fun x hx => h x (List.mem_cons_of_mem _ hx)
    rw [List.map_cons, List.reverse_cons, List.foldl_append, ih hL']
    simp only [List.foldl_cons, List.foldl_nil]
    rw [digitChar_toNat hd, Nat.ofDigits_cons]
    omega

/-- String `natRepr n` is a non-empty string of decimal digits that parses back to
`n`. -/
theorem natRepr_spec (n : Nat) :
    (natRepr n).data ≠ []
    ∧ (∀ c ∈ (natRepr n).data, c.isDigit = true)
    ∧ pyParseDigits (natRepr n).data = some n := by
  by_cases hn : n = 0
  · subst hn
    refine ⟨by decide, by decide, by decide⟩
  · have hdata : (natRepr n).data = ((Nat.digits 10 n).map digitChar).reverse := by
      rw [natRepr, if_neg hn]
    have hlt : ∀ d ∈ Nat.digits 10 n, d < 10 := fun d hd =>
      Nat.digits_lt_base (by norm_num) hd
    have hne : (natRepr n).data ≠ [] := by
      rw [hdata]
      simp [Nat.digits_ne_nil_iff_ne_zero.2 hn]
    have hdig : ∀ c ∈ (natRepr n).data, c.isDigit = true := by
      intro c hc
      rw [hdata, List.mem_reverse] at hc
      obtain ⟨d, hd, rfl⟩ := List.mem_map.1 hc
      exact digitChar_isDigit (hlt d hd)
    refine ⟨hne, hdig, ?_⟩
    rw [pyParseDigits, if_pos ⟨hne, List.all_eq_true.2 hdig⟩, hdata,
      foldl_parse_digits _ hlt, Nat.ofDigits_digits]

/-- String `intRepr i` models Python `str(i)`: it is non-empty, contains no colon,
and `int(...)` (our `pyInt?`) parses it back to `i`. -/
theorem intRepr_spec (i : Int) :
    pyInt? (intRepr i) = some i
    ∧ intRepr i ≠ ""
    ∧ ':' ∉ (intRepr i).data := by
  obtain ⟨hne, hdig, hparse⟩ := natRepr_spec i.natAbs
  by_cases hi : i < 0
  · have habs : (i.natAbs : Int) = -i := by omega
    have hdata : (intRepr i).data = '-' :: (natRepr i.natAbs).data := by
      rw [intRepr, if_pos hi, String.data_append]
      rfl
    refine ⟨?_, ?_, ?_⟩
    · rw [pyInt?]
      rw [hdata]
      simp only [if_pos rfl]
      rw [hparse]
      simp [habs]
    · intro hempty
      rw [String.ext_iff, hdata] at hempty
      cases hempty
    · rw [hdata]
      intro hc
      rcases List.mem_cons.1 hc with hcol | hcol
      · cases hcol
      · exact absurd rfl (isDigit_ne (hdig _ hcol)).2.2
  · have habs : (i.natAbs : Int) = i := by omega
    have hdata : (intRepr i).data = (natRepr i.natAbs).data := by
      rw [intRepr, if_neg hi]
    obtain ⟨c, rest, hcr⟩ := List.exists_cons_of_ne_nil hne
    have hcdig : c.isDigit = true := hdig c (by rw [hcr]; exact List.mem_cons_self _ _)
    obtain ⟨hcm, hcp, _⟩ := isDigit_ne hcdig
    refine ⟨?_, ?_, ?_⟩
    · rw [pyInt?, hdata, hcr]
      simp only [if_neg hcm, if_neg hcp]
      rw [← hcr, hparse]
      simp [habs]
    · intro hempty
      rw [String.ext_iff, hdata, hcr] at hempty
      cases hempty
    · rw [hdata]
      intro hc
      exact absurd rfl (isDigit_ne (hdig _ hc)).2.2

/-- Splitting a string whose character data is `[':'].intercalate parts`
recovers the parts, provided no part contains a colon. -/
theorem pySplitColon_intercalate (s : String) (parts : List (List Char))
    (hdata : s.data = [':'].intercalate parts)
    (hx : ∀ l ∈ parts, ':' ∉ l) (hne : parts ≠ []) :
    pySplitColon s = parts.map String.mk := by
  rw [pySplitColon, hdata, List.splitOn_intercalate parts ':' hx hne]

theorem parseTok_intRepr (i : Int) : parseTok (intRepr i) = some i := by
  obtain ⟨hparse, hne, _⟩ := intRepr_spec i
  rw [parseTok, if_neg hne, hparse]

/-- C10: the colon-joined button payloads emitted by the handlers
(`key:<kid>::`, `rep1:<k>:<o1>:`, `rep2:<k>:<o1>:<o2>`) decode — by the
split-pad-parse pipeline of `handle_button_press`, with an empty token
standing for `-1` — exactly to the level string and the three ids that were
encoded. -/
theorem claim_C10_payload_roundtrip (k o1 o2 : Int) :
    decodeCallbackData (keyCallbackData k) = some (LEVEL_KEY, k, -1, -1)
    ∧ decodeCallbackData (rep1CallbackData k o1) = some (LEVEL_REP1, k, o1, -1)
    ∧ decodeCallbackData (rep2CallbackData k o1 o2) = some (LEVEL_REP2, k, o1, o2) := by
  have hcolK : ':' ∉ (intRepr k).data := (intRepr_spec k).2.2
  have hcolO1 : ':' ∉ (intRepr o1).data := (intRepr_spec o1).2.2
  have hcolO2 : ':' ∉ (intRepr o2).data := (intRepr_spec o2).2.2
  refine ⟨?_, ?_, ?_⟩
  · have hsplit : pySplitColon (keyCallbackData k) = ["key", intRepr k, "", ""] := by
      have := pySplitColon_intercalate (keyCallbackData k)
        [("key" : String).data, (intRepr k).data, [], []]
        (by
          rw [keyCallbackData]
          simp [LEVEL_KEY, String.data_append, List.intercalate, List.intersperse])
        (by
          intro l hl
          rcases List.mem_cons.1 hl with rfl | hl
          · decide
          rcases List.mem_cons.1 hl with rfl | hl
          · exact hcolK
          rcases List.mem_cons.1 hl with rfl | hl
          · simp
          rcases List.mem_cons.1 hl with rfl | hl
          · simp
          · cases hl)
        (by simp)
      rw [this]
      rfl
    rw [decodeCallbackData, hsplit]
    show (match parseTok (intRepr k), parseTok "", parseTok "" with
      | some a, some b, some c => some (("key" : String), a, b, c)
      | _, _, _ => none) = some (LEVEL_KEY, k, -1, -1)
    rw [parseTok_intRepr]
    rfl
  · have hsplit : pySplitColon (rep1CallbackData k o1)
        = ["rep1", intRepr k, intRepr o1, ""] := by
      have := pySplitColon_intercalate (rep1CallbackData k o1)
        [("rep1" : String).data, (intRepr k).data, (intRepr o1).data, []]
        (by
          rw [rep1CallbackData]
          simp [LEVEL_REP1, String.data_append, List.intercalate, List.intersperse])
        (by
          intro l hl
          rcases List.mem_cons.1 hl with rfl | hl
          · decide
          rcases List.mem_cons.1 hl with rfl | hl
          · exact hcolK
          rcases List.mem_cons.1 hl with rfl | hl
          · exact hcolO1
          rcases List.mem_cons.1 hl with rfl | hl
          · simp
          · cases hl)
        (by simp)
      rw [this]
      rfl
    rw [decodeCallbackData, hsplit]
    show (match parseTok (intRepr k), parseTok (intRepr o1), parseTok "" with
      | some a, some b, some c => some (("rep1" : String), a, b, c)
      | _, _, _ => none) = some (LEVEL_REP1, k, o1, -1)
    rw [parseTok_intRepr, parseTok_intRepr]
    rfl
  · have hsplit : pySplitColon (rep2CallbackData k o1 o2)
        = ["rep2", intRepr k, intRepr o1, intRepr o2] := by
      have := pySplitColon_intercalate (rep2CallbackData k o1 o2)
        [("rep2" : String).data, (intRepr k).data, (intRepr o1).data, (intRepr o2).data]
        (by
          rw [rep2CallbackData]
          simp [LEVEL_REP2, String.data_append, List.intercalate, List.intersperse])
        (by
          intro l hl
          rcases List.mem_cons.1 hl with rfl | hl
          · decide
          rcases List.mem_cons.1 hl with rfl | hl
          · exact hcolK
          rcases List.mem_cons.1 hl with rfl | hl
          · exact hcolO1
          rcases List.mem_cons.1 hl with rfl | hl
          · exact hcolO2
          · cases hl)
        (by simp)
      rw [this]
      rfl
    rw [decodeCallbackData, hsplit]
    show (match parseTok (intRepr k), parseTok (intRepr o1), parseTok (intRepr o2) with
      | some a, some b, some c => some (("rep2" : String), a, b, c)
      | _, _, _ => none) = some (LEVEL_REP2, k, o1, o2)
    rw [parseTok_intRepr, parseTok_intRepr, parseTok_intRepr]
    rfl

/-! ## C2: the sliding-window rate limiter (spec-modelled) -/

/-- If no request time lies in the window, no admitted request is counted
in it, whatever the verdicts. -/
theorem admittedInWindow_zero (w win : Nat) (ts : List Nat) (res : List Bool)
    (h : ∀ t ∈ ts, ¬(w ≤ t ∧ t < w + win)) :
    admittedInWindow w win ts res = 0 := by
  rw [admittedInWindow, List.countP_eq_zero]
  intro p hp
  have ht : p.1 ∈ ts := (List.of_mem_zip (by exact hp)).1
  simp only [Bool.and_eq_true, decide_eq_true_eq]
  rintro ⟨hw, -⟩
  exact h p.1 ht hw

/-- Pruning entries older than the window does not remove any entry at or
after the window start, as long as the pruning time is inside the window:
the count of queue entries `≥ w` is preserved. -/
theorem countP_filter_window (q : List Nat) (now w win : Nat)
    (hnow : now < w + win) :
    (q.filter (fun t => decide (now < t + win))).countP (fun t => decide (w ≤ t))
      = q.countP (fun t => decide (w ≤ t)) := by
  induction q with
  | nil => rfl
  | cons t q ih =>
    rw [List.filter_cons]
    by_cases hp : now < t + win
    · rw [if_pos (by simpa using hp), List.countP_cons, List.countP_cons, ih]
    · rw [if_neg (by simpa using hp), ih, List.countP_cons]
      have hlt : ¬ w ≤ t := by omega
      simp [hlt]

/-- Core invariant argument for the sliding window: starting from any queue
of at most `maxR` entries, processing any nondecreasing request sequence
admits at most `maxR - (entries already ≥ w)` requests inside the window
`[w, w + winS)`. -/
theorem runAdmits_window_bound (w maxR winS : Nat) :
    ∀ (ts : List Nat) (q : List Nat), ts.Sorted (· ≤ ·) → q.length ≤ maxR →
      admittedInWindow w winS ts (runAdmits ⟨maxR, winS, q⟩ ts)
        + q.countP (fun t => decide (w ≤ t)) ≤ maxR := by
  intro ts
  induction ts with
  | nil =>
    intro q _ hq
    have hc : q.countP (fun t => decide (w ≤ t)) ≤ q.length := List.countP_le_length _
    have hz : admittedInWindow w winS [] (runAdmits ⟨maxR, winS, q⟩ []) = 0 := rfl
    omega
  | cons t rest ih =>
    intro q hsort hq
    have hsort' : rest.Sorted (· ≤ ·) := hsort.of_cons
    have hmono : ∀ t' ∈ rest, t ≤ t' := fun t' ht' => List.rel_of_sorted_cons hsort t' ht'
    by_cases hwin : t < w + winS
    · have hcp : (q.filter (fun s => decide (t < s + winS))).countP
          (fun s => decide (w ≤ s)) = q.countP (fun s => decide (w ≤ s)) :=
        countP_filter_window q t w winS hwin
      by_cases hadm : (q.filter (fun s => decide (t < s + winS))).length < maxR
      · have hstep : admitRequest ⟨maxR, winS, q⟩ t
            = (true, ⟨maxR, winS, q.filter (fun s => decide (t < s + winS)) ++ [t]⟩) := by
          rw [admitRequest]
          simp only [if_pos hadm]
        rw [runAdmits, hstep]
        simp only [admittedInWindow, List.zip_cons_cons, List.countP_cons]
        have hlen : (q.filter (fun s => decide (t < s + winS)) ++ [t]).length ≤ maxR := by
          rw [List.length_append]
          simp only [List.length_singleton]
          omega
        have hih := ih (q.filter (fun s => decide (t < s + winS)) ++ [t]) hsort' hlen
        rw [List.countP_append, hcp] at hih
        by_cases hwt : w ≤ t
        · have h1 : ([t].countP (fun s => decide (w ≤ s))) = 1 := by simp [hwt]
          have h2 : (if (decide (w ≤ t ∧ t < w + winS) && true) = true then 1 else 0) = 1 := by
            simp [hwt, hwin]
          simp only [admittedInWindow] at hih ⊢
          rw [h2]
          rw [h1] at hih
          omega
        · have h1 : ([t].countP (fun s => decide (w ≤ s))) = 0 := by simp [hwt]
          have h2 : (if (decide (w ≤ t ∧ t < w + winS) && true) = true then 1 else 0) = 0 := by
            simp [hwt]
          simp only [admittedInWindow] at hih ⊢
          rw [h2]
          rw [h1] at hih
          omega
      · have hstep : admitRequest ⟨maxR, winS, q⟩ t
            = (false, ⟨maxR, winS, q.filter (fun s => decide (t < s + winS))⟩) := by
          rw [admitRequest]
          simp only [if_neg hadm]
        rw [runAdmits, hstep]
        simp only [admittedInWindow, List.zip_cons_cons, List.countP_cons]
        have hlen : (q.filter (fun s => decide (t < s + winS))).length ≤ maxR :=
          le_trans (List.length_filter_le _ _) hq
        have hih := ih (q.filter (fun s => decide (t < s + winS))) hsort' hlen
        rw [hcp] at hih
        have h2 : (if (decide (w ≤ t ∧ t < w + winS) && false) = true then 1 else 0) = 0 := by
          simp
        simp only [admittedInWindow] at hih ⊢
        rw [h2]
        omega
    · have hz : admittedInWindow w winS (t :: rest)
          (runAdmits ⟨maxR, winS, q⟩ (t :: rest)) = 0 := by
        apply admittedInWindow_zero
        intro t' ht'
        rcases List.mem_cons.1 ht' with rfl | ht''
        · rintro ⟨-, hlt⟩
          exact hwin hlt
        · rintro ⟨-, hlt⟩
          have := hmono t' ht''
          omega
      have hc : q.countP (fun s => decide (w ≤ s)) ≤ q.length := List.countP_le_length _
      omega

/-- Once the whole window has passed since every recorded request,
admission is restored. -/
theorem admitRequest_after_window (rl : RateLimiter) (now : Nat)
    (hmax : 0 < rl.maxRequests)
    (hold : ∀ t ∈ rl.timestamps, t + rl.windowSeconds ≤ now) :
    (admitRequest rl now).1 = true := by
  have hfil : rl.timestamps.filter (fun t => decide (now < t + rl.windowSeconds)) = [] := by
    rw [List.filter_eq_nil_iff]
    intro t ht
    have := hold t ht
    simp only [decide_eq_true_eq]
    omega
  rw [admitRequest]
  simp only [hfil, List.length_nil]
  rw [if_pos hmax]

/-- C2 (spec-modelled): for any nondecreasing request sequence the sliding
60-second/30-request limiter admits at most 30 requests whose timestamps
lie in any window `[w, w + 60)`; a rate limiter state whose recorded
requests are all a full window old admits the next request; and 31
back-to-back requests (all inside 10 seconds) see the 31st rejected. -/
theorem claim_C2_sliding_window (ts : List Nat) (w : Nat) (rl : RateLimiter)
    (now : Nat) (hsort : ts.Sorted (· ≤ ·))
    (hmax : rl.maxRequests = 30) (hwin : rl.windowSeconds = 60)
    (hpassed : ∀ t ∈ rl.timestamps, t + 60 ≤ now) :
    admittedInWindow w 60 ts (runAdmits ⟨30, 60, []⟩ ts) ≤ 30
    ∧ (admitRequest rl now).1 = true
    ∧ runAdmits ⟨30, 60, []⟩ (List.replicate 31 0)
        = List.replicate 30 true ++ [false] := by
  refine ⟨?_, ?_, ?_⟩
  · have h := runAdmits_window_bound w 30 60 ts [] hsort (by simp)
    simpa using h
  · apply admitRequest_after_window rl now (by omega)
    intro t ht
    rw [hwin]
    exact hpassed t ht
  · decide

/-- Witness for C2: 31 requests at time `0` against the default
30-per-60-seconds limiter — at most 30 admitted, and the verdict list is
thirty `true`s followed by one `false`. -/
theorem claim_C2_witness :
    (List.replicate 31 0).Sorted (· ≤ ·)
    ∧ admittedInWindow 0 60 (List.replicate 31 0)
        (runAdmits ⟨30, 60, []⟩ (List.replicate 31 0)) ≤ 30
    ∧ runAdmits ⟨30, 60, []⟩ (List.replicate 31 0)
        = List.replicate 30 true ++ [false] := by
  have h := claim_C2_sliding_window (List.replicate 31 0) 0 ⟨30, 60, []⟩ 0
    (by decide) rfl rfl (by intro t ht; cases ht)
  exact ⟨by decide, h.1, h.2.2⟩

end TgBot
